import Mathlib

/-!
Verification of the FTP data reader core against its specification.

The definitions below are a shallow embedding of the TypeScript sources:
  * `src/services/FTPService.ts` (retry engine, transfer client, validator,
    credential round-trip),
  * `src/components/DataDisplay.tsx` (series builder `processDataForCharts`),
  * the logger service (bounded log queue),
  * `src/services/SecureStorage.ts` (key/value store contract).

Wall-clock times (timestamps, durations) are elided: they never influence
control flow.  JavaScript numbers are modelled as integers (`Int`); the
cells exercised by the claims are integer-valued, and no claim depends on
fractional arithmetic.  Asynchronous effects (logging, metric recording,
backoff sleeps, connect/disconnect calls) are made explicit by threading a
`Sys` record through each operation.
-/

/-- Log severities, mirroring `LogLevel` in the logger service. -/
inductive LogLevel where
  | debug
  | info
  | warn
  | error
deriving DecidableEq

/-- One `ConnectionMetrics` entry of `FTPService` (durations elided:
they are wall-clock values). -/
structure MetricEntry where
  fileSize : Nat
  success : Bool
  error : Option String := none
deriving DecidableEq

/-- Observable effects of one `FTPService` operation: emitted log events,
appended metrics, backoff sleeps performed by the retry engine, counts of
transport connect / disconnect calls, uses of the synthetic (mock)
download, and the number of times the wrapped operation body ran. -/
structure Sys where
  logs : List (LogLevel × String) := []
  metrics : List MetricEntry := []
  delays : List Nat := []
  connects : Nat := 0
  disconnects : Nat := 0
  mockDownloads : Nat := 0
  attempts : Nat := 0
deriving DecidableEq

def emptySys : Sys := {}

def pushLog (s : Sys) (lvl : LogLevel) (msg : String) : Sys :=
  { s with logs := s.logs ++ [(lvl, msg)] }

def pushDelay (s : Sys) (d : Nat) : Sys :=
  { s with delays := s.delays ++ [d] }

def pushMetric (s : Sys) (m : MetricEntry) : Sys :=
  { s with metrics := s.metrics ++ [m] }

def tickAttempt (s : Sys) : Sys :=
  { s with attempts := s.attempts + 1 }

def connectInc (s : Sys) : Sys :=
  { s with connects := s.connects + 1 }

/-- `disconnectClient`: best-effort disconnect followed by a debug log
(disconnect failures are swallowed inside it and never escalate). -/
def discInc (s : Sys) : Sys :=
  pushLog { s with disconnects := s.disconnects + 1 } .debug "FTP client disconnected"

/-- The backoff wait of `retryOperation`:
`Math.min(1000 * Math.pow(2, attempt - 1), 10000)`. -/
def backoffDelay (attempt : Nat) : Nat :=
  min (1000 * 2 ^ (attempt - 1)) 10000

/-- The message of the final `logger.error` in `retryOperation`
(and of the fallback `Error` thrown when no attempt ever ran). -/
def retryFailMsg (opName : String) (maxRetries : Nat) : String :=
  opName ++ " failed after " ++ toString maxRetries ++ " attempts"

/-- The loop body of `FTPService.retryOperation`, with `fuel` the number of
attempts still allowed (`fuel = maxRetries - attempt + 1` on entry).  The
wrapped operation `op` receives the attempt number and the current effect
state.  Mirrors the TypeScript: log the attempt, run the operation, return
the first success (logging distinctly when `attempt > 1`), otherwise log a
warning, sleep `backoffDelay attempt` when further attempts remain, and
after the final failure log an error with attempt-count context and fail
with the last error. -/
def retryFrom {α : Type} (op : Nat → Sys → Sys × Except String α) (opName : String)
    (maxRetries : Nat) (attempt : Nat) (lastErr : Option String) :
    Nat → Sys → Sys × Except String α
  | 0, s =>
      (pushLog s .error (retryFailMsg opName maxRetries),
       Except.error (lastErr.getD (retryFailMsg opName maxRetries)))
  | fuel + 1, s =>
      let s1 := pushLog (tickAttempt s) .debug ("Attempting " ++ opName)
      match op attempt s1 with
      | (s2, Except.ok v) =>
          (if 1 < attempt then
             pushLog s2 .info (opName ++ " succeeded on attempt " ++ toString attempt)
           else s2,
           Except.ok v)
      | (s2, Except.error e) =>
          let s3 := pushLog s2 .warn (opName ++ " failed on attempt " ++ toString attempt)
          let s4 := if 0 < fuel then pushDelay s3 (backoffDelay attempt) else s3
          retryFrom op opName maxRetries (attempt + 1) (some e) fuel s4

/-- `FTPService.retryOperation`: run `op` up to `maxRetries` times starting
at attempt 1. -/
def retryOperation {α : Type} (op : Nat → Sys → Sys × Except String α)
    (opName : String) (maxRetries : Nat) (s : Sys) : Sys × Except String α :=
  retryFrom op opName maxRetries 1 none maxRetries s

/-- Lift an effect-free fallible operation (the result of attempt `n` is
`f n`) into the retry engine. -/
def liftOp {α : Type} (f : Nat → Except String α) : Nat → Sys → Sys × Except String α :=
  fun n s => (s, f n)

/-- `FTPConfig` from `FTPService.ts` (the spec's `EndpointConfig`).  Note
`port` is a string in the source. -/
structure FTPConfig where
  host : String
  port : String
  username : String
  password : String
  filename : String
deriving DecidableEq

def sampleCfg : FTPConfig :=
  { host := "ftp.example.com", port := "21", username := "user",
    password := "password", filename := "data.xls" }

/-- The attempt body of `FTPService.testConnection`.  `connectR`/`listR`
give the outcome of the transport `connect` and `list` calls on each
attempt.  When the FTP library is unavailable the body succeeds with a
mock result.  Mirrors the source exactly: on a successful `connect`
followed by a failing `list('/')` the error propagates with NO
disconnect (there is no try/finally in `testConnection`). -/
def testConnectionBody (ftpAvailable : Bool) (connectR listR : Nat → Except String Unit)
    (attempt : Nat) (s : Sys) : Sys × Except String Bool :=
  let s0 := pushLog s .info "Testing FTP connection"
  if ftpAvailable then
    let sInit := pushLog s0 .debug "Initializing FTP client"
    match connectR attempt with
    | Except.error e =>
        (pushLog sInit .error "Failed to initialize FTP client", Except.error e)
    | Except.ok _ =>
        let s1 := pushLog (connectInc sInit) .info "FTP client connected successfully"
        match listR attempt with
        | Except.error e => (s1, Except.error e)
        | Except.ok _ =>
            (pushLog (discInc s1) .info "FTP connection test successful", Except.ok true)
  else
    (pushLog s0 .info "FTP library not available, using mock connection test", Except.ok true)

/-- `FTPService.testConnection`: the body wrapped in the retry engine.
It records no metrics (`connectionMetrics` is only pushed in
`downloadFile`). -/
def testConnection (ftpAvailable : Bool) (connectR listR : Nat → Except String Unit)
    (maxRetries : Nat) (s : Sys) : Sys × Except String Bool :=
  retryOperation (testConnectionBody ftpAvailable connectR listR) "Connection Test" maxRetries s

/-- `FTPService.mockDownload`: the synthetic-data generator.  The network
delay and the `Date.now()` component of the file name are elided. -/
def mockDownload (s : Sys) : Sys × String :=
  let s1 := pushLog s .info "Using mock FTP download for development/fallback"
  let s2 := { s1 with mockDownloads := s1.mockDownloads + 1 }
  (pushLog s2 .info "Mock file created successfully", "mock_downloaded.xlsx")

/-- JavaScript `String.prototype.split` with a single-character
separator. -/
def splitOnChar (sep : Char) : List Char → List (List Char)
  | [] => [[]]
  | c :: cs =>
      match splitOnChar sep cs with
      | [] => [[]]
      | g :: gs => if c = sep then [] :: g :: gs else (c :: g) :: gs

/-- `this.config.filename.split('.').pop() || 'xlsx'` in `downloadFile`. -/
def fileExtensionOr (filename : String) : String :=
  let e := String.mk ((splitOnChar '.' filename.data).getLastD [])
  if e = "" then "xlsx" else e

/-- The attempt body of `FTPService.downloadFile`.  `connectR` gives the
outcome of the transport connect, `transferR` the joint outcome of the
`client.downloadFile` transfer and the subsequent `validateFile` check,
and `sizeR` the downloaded file size reported on success.  On any failure
a failed metric is recorded and the error rethrown; the `finally` block
disconnects whenever a client was opened.  The synthetic `mockDownload`
is used only when the FTP library is unavailable. -/
def downloadFileBody (ftpAvailable : Bool) (connectR transferR : Nat → Except String Unit)
    (sizeR : Nat → Nat) (cfg : FTPConfig) (attempt : Nat) (s : Sys) :
    Sys × Except String String :=
  let s0 := pushLog s .info "Starting file download"
  if ftpAvailable then
    let sInit := pushLog s0 .debug "Initializing FTP client"
    match connectR attempt with
    | Except.error e =>
        let sA := pushLog sInit .error "Failed to initialize FTP client"
        let sB := pushMetric sA { fileSize := 0, success := false, error := some e }
        (pushLog sB .error "File download failed", Except.error e)
    | Except.ok _ =>
        let s1 := pushLog (connectInc sInit) .info "FTP client connected successfully"
        let localPath := "downloaded." ++ fileExtensionOr cfg.filename
        match transferR attempt with
        | Except.error e =>
            let sB := pushMetric s1 { fileSize := 0, success := false, error := some e }
            let sC := pushLog sB .error "File download failed"
            (discInc sC, Except.error e)
        | Except.ok _ =>
            let sB := pushMetric s1 { fileSize := sizeR attempt, success := true }
            let sC := pushLog sB .info "File downloaded successfully"
            (discInc sC, Except.ok localPath)
  else
    let s1 := pushLog s0 .info "FTP library not available, using mock download"
    let (s2, path) := mockDownload s1
    (s2, Except.ok path)

/-- `FTPService.downloadFile`: the body wrapped in the retry engine. -/
def downloadFile (ftpAvailable : Bool) (connectR transferR : Nat → Except String Unit)
    (sizeR : Nat → Nat) (cfg : FTPConfig) (maxRetries : Nat) (s : Sys) :
    Sys × Except String String :=
  retryOperation (downloadFileBody ftpAvailable connectR transferR sizeR cfg)
    "File Download" maxRetries s

/-- The error produced by one `downloadFile` attempt with the transport
available: the connect error if connecting fails, otherwise the
transfer/validation error if that fails, otherwise none. -/
def attemptError (connectR transferR : Nat → Except String Unit) (j : Nat) : Option String :=
  match connectR j with
  | Except.error e => some e
  | Except.ok _ =>
      match transferR j with
      | Except.error e => some e
      | Except.ok _ => none

/-- Failure cases of `FTPService.validateFile` (the spec's
`ValidationError`). -/
inductive ValidationError where
  | notFound
  | empty
  | tooLarge
deriving DecidableEq

/-- `this.config.filename.toLowerCase().split('.').pop()` in
`validateFile`. -/
def fileExtension (filename : String) : String :=
  String.mk ((splitOnChar '.' (filename.data.map Char.toLower)).getLastD [])

/-- `FTPService.validateFile`.  `fileExists` and `size` model the
`FileSystem.getInfoAsync` result; `maxFileSize` and
`supportedFileTypes` model `config.app`.  The returned `Bool` records
whether the unsupported-extension warning was logged (the source calls
`logger.warn` and still succeeds). -/
def validateFile (fileExists : Bool) (size : Nat) (maxFileSize : Nat)
    (supportedFileTypes : List String) (filename : String) :
    Except ValidationError Bool :=
  if !fileExists then Except.error ValidationError.notFound
  else if size = 0 then Except.error ValidationError.empty
  else if size > maxFileSize then Except.error ValidationError.tooLarge
  else
    let ext := fileExtension filename
    Except.ok (ext != "" && !(supportedFileTypes.contains ("." ++ ext)))

/-- `config.app.supportedFileTypes` of the development tier. -/
def supportedFileTypesDev : List String := [".xls", ".xlsx", ".csv"]

deriving instance DecidableEq for Except

/-- JavaScript whitespace, as trimmed by `Number()` coercion. -/
def isSpaceChar (c : Char) : Bool :=
  c = ' ' || c = '\t' || c = '\n' || c = '\r' || c = '\x0b' || c = '\x0c'

/-- Strip leading and trailing whitespace from a character list. -/
def trimChars (cs : List Char) : List Char :=
  ((cs.dropWhile isSpaceChar).reverse.dropWhile isSpaceChar).reverse

/-- Digits-only decimal value; `none` when empty or any non-digit occurs. -/
def digitsVal (cs : List Char) : Option Nat :=
  if cs = [] then none
  else if cs.all Char.isDigit then
    some (cs.foldl (fun acc c => acc * 10 + (c.toNat - 48)) 0)
  else none

/-- JavaScript `Number(value)` on string cells, restricted to
integer-valued literals (optionally signed, surrounding whitespace
trimmed; the empty/blank string is `0`).  Fractional, exponent and hex
literals are outside this integer model — no claim depends on them.
`none` stands for `NaN`. -/
def jsNumber (s : String) : Option Int :=
  match trimChars s.data with
  | [] => some 0
  | c :: cs =>
      if c = '-' then (digitsVal cs).map (fun n => -(n : Int))
      else if c = '+' then (digitsVal cs).map (fun n => (n : Int))
      else (digitsVal (c :: cs)).map (fun n => (n : Int))

/-- `isNaN(numValue) ? 0 : numValue` in `processDataForCharts`. -/
def coerceCell (v : String) : Int :=
  match jsNumber v with
  | some n => n
  | none => 0

/-- One candidate data column of `processDataForCharts`: every cell of
column `i` coerced to a number (`row[i]` missing reads as `undefined`,
whose coercion is `NaN`, hence `0`). -/
def columnOf (dataRows : List (List String)) (i : Nat) : List Int :=
  dataRows.map (fun row =>
    match row.get? i with
    | some v => coerceCell v
    | none => 0)

/-- `rawData[0]` (the header row). -/
def headersOf (rawData : List (List String)) : List String :=
  rawData.headD []

/-- `rawData.slice(1).filter(row => row && row.length > 0)`. -/
def dataRowsOf (rawData : List (List String)) : List (List String) :=
  (rawData.drop 1).filter (fun row => !row.isEmpty)

/-- The label of data row `index`:
`String(row[0] || `Row (index+1)`)`, truncated to 10 characters with an
ellipsis marker when longer. -/
def rowLabel (index : Nat) (row : List String) : String :=
  let raw :=
    match row.get? 0 with
    | some v => if v = "" then "Row " ++ toString (index + 1) else v
    | none => "Row " ++ toString (index + 1)
  if raw.length > 10 then raw.take 10 ++ "..." else raw

/-- `Math.abs`. -/
def intAbs (v : Int) : Int := (v.natAbs : Int)

/-- `x || 1` on a non-negative integer (the output of `Math.abs`). -/
def jsOr1 (v : Int) : Int := if v = 0 then 1 else v

/-- The candidate data column indices of `processDataForCharts`: the loop
`for (let i = 1; i < headers.length && i < 5; i++)`, i.e. the indices
`1 .. min (headerCount - 1) 4`. -/
def candidateColumns (headerCount : Nat) : List Nat :=
  List.range' 1 (min (headerCount - 1) 4)

/-- The render-ready output of the series builder: labels, the retained
numeric datasets, and the proportional (pie) breakdown. -/
structure ChartModel where
  labels : List String
  datasets : List (List Int)
  pie : List (String × Int)
deriving DecidableEq

/-- `processDataForCharts` from `src/components/DataDisplay.tsx` (the
series builder actually imported by the app; the copy in the unnamed
source file is a superseded variant).  Chart colours and stroke widths
are presentation-only and elided. -/
def processDataForCharts (rawData : List (List String)) : Except String ChartModel :=
  if rawData.length < 2 then
    Except.error "Insufficient data - need at least 2 rows (header + data)"
  else
    let headers := headersOf rawData
    let dataRows := dataRowsOf rawData
    if dataRows.isEmpty then Except.error "No data rows found"
    else
      let labels := dataRows.mapIdx rowLabel
      let datasets := (candidateColumns headers.length).filterMap (fun i =>
        let columnData := columnOf dataRows i
        if columnData.any (fun v => v != 0) then some columnData else none)
      if datasets.isEmpty then Except.error "No numeric data columns found"
      else
        let d0 := datasets.headD []
        let pie := labels.mapIdx (fun index label => (label, jsOr1 (intAbs (d0.getD index 0))))
        Except.ok { labels := labels, datasets := datasets, pie := pie }

/-- Scenario A of the spec. -/
def scenarioA : List (List String) :=
  [["Month", "Sales"], ["Jan", "100"], ["Feb", "bad"], ["Mar", "300"]]

/-- The series model the code produces on scenario A. -/
def scenarioAModel : ChartModel :=
  { labels := ["Jan", "Feb", "Mar"],
    datasets := [[100, 0, 300]],
    pie := [("Jan", 100), ("Feb", 1), ("Mar", 300)] }

/-- A `LogEntry` of the logger service (timestamp and payload elided:
only the level gates queue admission). -/
structure LogEntry where
  level : LogLevel
  message : String
deriving DecidableEq

/-- `levels.indexOf` over `['debug','info','warn','error']`. -/
def levelIndex : LogLevel → Nat
  | .debug => 0
  | .info => 1
  | .warn => 2
  | .error => 3

/-- `LoggerService.shouldLog`: admit an event whose level is at or above
the configured threshold. -/
def shouldLog (configLevel level : LogLevel) : Bool :=
  levelIndex configLevel ≤ levelIndex level

/-- The queue effect of one `LoggerService.log` call: drop the event when
below the threshold, otherwise push it and truncate to the most recent
`maxQueueSize` entries (`this.logQueue.slice(-this.maxQueueSize)`).
Console/file writes and the error-triggered flush do not alter the queue
bound (`sendToRemoteService` swallows its own failures, so `flush` only
ever empties the queue). -/
def logStep (maxQueueSize : Nat) (configLevel : LogLevel)
    (q : List LogEntry) (e : LogEntry) : List LogEntry :=
  if shouldLog configLevel e.level then
    let q1 := q ++ [e]
    if q1.length > maxQueueSize then q1.drop (q1.length - maxQueueSize) else q1
  else q

/-- JSON string-escaping of one character, as performed by
`JSON.stringify`: quote, backslash and the named control escapes, other
control characters as `\u00XX`, everything else verbatim. -/
def escChar (c : Char) : List Char :=
  if c = '"' then ['\\', '"']
  else if c = '\\' then ['\\', '\\']
  else if c = '\x08' then ['\\', 'b']
  else if c = '\x09' then ['\\', 't']
  else if c = '\x0a' then ['\\', 'n']
  else if c = '\x0c' then ['\\', 'f']
  else if c = '\x0d' then ['\\', 'r']
  else if c.toNat < 32 then
    ['\\', 'u', '0', '0', Nat.digitChar (c.toNat / 16), Nat.digitChar (c.toNat % 16)]
  else [c]

def escapeChars (cs : List Char) : List Char :=
  (cs.map escChar).flatten

/-- Hexadecimal digit value, both cases (as accepted by `JSON.parse`). -/
def hexVal (c : Char) : Option Nat :=
  let n := c.toNat
  if 48 ≤ n ∧ n ≤ 57 then some (n - 48)
  else if 97 ≤ n ∧ n ≤ 102 then some (n - 87)
  else if 65 ≤ n ∧ n ≤ 70 then some (n - 55)
  else none

/-- The named escapes accepted by `JSON.parse` after a backslash. -/
def unescChar (c : Char) : Option Char :=
  if c = '"' then some '"'
  else if c = '\\' then some '\\'
  else if c = '/' then some '/'
  else if c = 'b' then some '\x08'
  else if c = 't' then some '\x09'
  else if c = 'n' then some '\x0a'
  else if c = 'f' then some '\x0c'
  else if c = 'r' then some '\x0d'
  else none

mutual

/-- `JSON.parse` string-literal body: consume characters up to and
including the closing quote, resolving escapes, and return the decoded
characters together with the remaining input.  Unescaped control
characters are rejected, as in JSON.  `parseEsc` handles the character
after a backslash and `parseHexEsc` a `\uXXXX` escape. -/
def parseStrBody : List Char → Option (List Char × List Char)
  | [] => none
  | c :: rest =>
      if c = '"' then some ([], rest)
      else if c = '\\' then parseEsc rest
      else if c.toNat < 32 then none
      else (parseStrBody rest).map (fun pr => (c :: pr.1, pr.2))

def parseEsc : List Char → Option (List Char × List Char)
  | [] => none
  | e :: rest2 =>
      if e = 'u' then parseHexEsc rest2
      else
        match unescChar e with
        | some u => (parseStrBody rest2).map (fun pr => (u :: pr.1, pr.2))
        | none => none

def parseHexEsc : List Char → Option (List Char × List Char)
  | h1 :: h2 :: h3 :: h4 :: rest3 =>
      match hexVal h1, hexVal h2, hexVal h3, hexVal h4 with
      | some a, some b, some c2, some d =>
          (parseStrBody rest3).map (fun pr =>
            (Char.ofNat (((a * 16 + b) * 16 + c2) * 16 + d) :: pr.1, pr.2))
      | _, _, _, _ => none
  | _ => none

end

/-- Consume an expected literal prefix. -/
def dropLit : List Char → List Char → Option (List Char)
  | [], input => some input
  | _ :: _, [] => none
  | p :: ps, c :: cs => if c = p then dropLit ps cs else none

/-- The serialized credential object of `saveCredentials`:
`JSON.stringify({host, port, username, password, filename})` with the
source's field order.  Written in the segment shape the parser consumes:
each literal segment ends with the opening quote of the next string and
each string body is followed by its closing quote. -/
def credChars (c : FTPConfig) : List Char :=
  "\x7b\"host\":\"".data ++ escapeChars c.host.data ++
    '"' :: (",\"port\":\"".data ++ escapeChars c.port.data ++
      '"' :: (",\"username\":\"".data ++ escapeChars c.username.data ++
        '"' :: (",\"password\":\"".data ++ escapeChars c.password.data ++
          '"' :: (",\"filename\":\"".data ++ escapeChars c.filename.data ++
            '"' :: ['\x7d']))))

def stringifyCredentials (c : FTPConfig) : String :=
  String.mk (credChars c)

/-- `JSON.parse` of a serialized credential object (the `as FTPConfig`
cast performs no validation, so the parse yields the five fields
directly).  Restricted to the exact grammar `JSON.stringify` emits for
this object — the only strings `loadCredentials` ever parses in the
round-trip contract. -/
def parseCreds (input : List Char) : Option FTPConfig := do
  let r0 ← dropLit "\x7b\"host\":\"".data input
  let (h, r1) ← parseStrBody r0
  let r2 ← dropLit ",\"port\":\"".data r1
  let (p, r3) ← parseStrBody r2
  let r4 ← dropLit ",\"username\":\"".data r3
  let (u, r5) ← parseStrBody r4
  let r6 ← dropLit ",\"password\":\"".data r5
  let (w, r7) ← parseStrBody r6
  let r8 ← dropLit ",\"filename\":\"".data r7
  let (f, r9) ← parseStrBody r8
  match r9 with
  | ['\x7d'] =>
      some { host := String.mk h, port := String.mk p, username := String.mk u,
             password := String.mk w, filename := String.mk f }
  | _ => none

def parseCredentials (s : String) : Option FTPConfig :=
  parseCreds s.data

/-- The Secure Credential Store contract: an in-memory key/value map
(`SecureStorageService.setItem`/`getItem` with the store returning what
was stored). -/
def setItem (store : List (String × String)) (key value : String) : List (String × String) :=
  (key, value) :: store

def getItem (store : List (String × String)) (key : String) : Option String :=
  (store.find? (fun kv => kv.1 == key)).map (fun kv => kv.2)

/-- `FTPService.saveCredentials`: serialize the five config fields and
store them under `'ftp_credentials'`. -/
def saveCredentials (c : FTPConfig) (store : List (String × String)) :
    List (String × String) :=
  setItem store "ftp_credentials" (stringifyCredentials c)

/-- `FTPService.loadCredentials`: read `'ftp_credentials'`, and when a
non-empty string is present (`if (credentialsJson)`), `JSON.parse` it;
a missing key or a parse failure yields `none` (the source returns
`null`). -/
def loadCredentials (store : List (String × String)) : Option FTPConfig :=
  match getItem store "ftp_credentials" with
  | some s => if s = "" then none else parseCredentials s
  | none => none

/-- A heap of mutable cells, addressed by allocation index: the minimal
aliasing model needed to state that `getConfig`/`getMetrics` return
defensive copies.  `heapAlloc` appends a fresh cell, `heapWrite` mutates
a cell in place, `heapRead` dereferences. -/
def heapAlloc {α : Type} (h : List α) (v : α) : List α × Nat :=
  (h ++ [v], h.length)

def heapWrite {α : Type} (h : List α) (a : Nat) (v : α) : List α :=
  h.set a v

def heapRead {α : Type} (h : List α) (a : Nat) : Option α :=
  h.get? a

def defaultFTPConfig : FTPConfig :=
  { host := "", port := "", username := "", password := "", filename := "" }

/-- `FTPService.getConfig`: `return { ...this.config }` — allocate a
fresh object holding a shallow copy of the stored config and return its
address. -/
def getConfigModel (h : List FTPConfig) (configAddr : Nat) : List FTPConfig × Nat :=
  heapAlloc h ((heapRead h configAddr).getD defaultFTPConfig)

/-- `FTPService.getMetrics`: `return [...this.connectionMetrics]` —
allocate a fresh array holding a shallow copy of the metrics sequence
and return its address. -/
def getMetricsModel (h : List (List MetricEntry)) (metricsAddr : Nat) :
    List (List MetricEntry) × Nat :=
  heapAlloc h ((heapRead h metricsAddr).getD [])

@[simp] theorem pushLog_logs (s : Sys) (l : LogLevel) (m : String) :
    (pushLog s l m).logs = s.logs ++ [(l, m)] := rfl
@[simp] theorem pushLog_metrics (s : Sys) (l : LogLevel) (m : String) :
    (pushLog s l m).metrics = s.metrics := rfl
@[simp] theorem pushLog_delays (s : Sys) (l : LogLevel) (m : String) :
    (pushLog s l m).delays = s.delays := rfl
@[simp] theorem pushLog_connects (s : Sys) (l : LogLevel) (m : String) :
    (pushLog s l m).connects = s.connects := rfl
@[simp] theorem pushLog_disconnects (s : Sys) (l : LogLevel) (m : String) :
    (pushLog s l m).disconnects = s.disconnects := rfl
@[simp] theorem pushLog_mockDownloads (s : Sys) (l : LogLevel) (m : String) :
    (pushLog s l m).mockDownloads = s.mockDownloads := rfl
@[simp] theorem pushLog_attempts (s : Sys) (l : LogLevel) (m : String) :
    (pushLog s l m).attempts = s.attempts := rfl

@[simp] theorem pushDelay_logs (s : Sys) (d : Nat) : (pushDelay s d).logs = s.logs := rfl
@[simp] theorem pushDelay_metrics (s : Sys) (d : Nat) : (pushDelay s d).metrics = s.metrics := rfl
@[simp] theorem pushDelay_delays (s : Sys) (d : Nat) :
    (pushDelay s d).delays = s.delays ++ [d] := rfl
@[simp] theorem pushDelay_connects (s : Sys) (d : Nat) : (pushDelay s d).connects = s.connects := rfl
@[simp] theorem pushDelay_disconnects (s : Sys) (d : Nat) :
    (pushDelay s d).disconnects = s.disconnects := rfl
@[simp] theorem pushDelay_mockDownloads (s : Sys) (d : Nat) :
    (pushDelay s d).mockDownloads = s.mockDownloads := rfl
@[simp] theorem pushDelay_attempts (s : Sys) (d : Nat) : (pushDelay s d).attempts = s.attempts := rfl

@[simp] theorem pushMetric_logs (s : Sys) (m : MetricEntry) : (pushMetric s m).logs = s.logs := rfl
@[simp] theorem pushMetric_metrics (s : Sys) (m : MetricEntry) :
    (pushMetric s m).metrics = s.metrics ++ [m] := rfl
@[simp] theorem pushMetric_delays (s : Sys) (m : MetricEntry) : (pushMetric s m).delays = s.delays := rfl
@[simp] theorem pushMetric_connects (s : Sys) (m : MetricEntry) :
    (pushMetric s m).connects = s.connects := rfl
@[simp] theorem pushMetric_disconnects (s : Sys) (m : MetricEntry) :
    (pushMetric s m).disconnects = s.disconnects := rfl
@[simp] theorem pushMetric_mockDownloads (s : Sys) (m : MetricEntry) :
    (pushMetric s m).mockDownloads = s.mockDownloads := rfl
@[simp] theorem pushMetric_attempts (s : Sys) (m : MetricEntry) :
    (pushMetric s m).attempts = s.attempts := rfl

@[simp] theorem tickAttempt_logs (s : Sys) : (tickAttempt s).logs = s.logs := rfl
@[simp] theorem tickAttempt_metrics (s : Sys) : (tickAttempt s).metrics = s.metrics := rfl
@[simp] theorem tickAttempt_delays (s : Sys) : (tickAttempt s).delays = s.delays := rfl
@[simp] theorem tickAttempt_connects (s : Sys) : (tickAttempt s).connects = s.connects := rfl
@[simp] theorem tickAttempt_disconnects (s : Sys) : (tickAttempt s).disconnects = s.disconnects := rfl
@[simp] theorem tickAttempt_mockDownloads (s : Sys) :
    (tickAttempt s).mockDownloads = s.mockDownloads := rfl
@[simp] theorem tickAttempt_attempts (s : Sys) : (tickAttempt s).attempts = s.attempts + 1 := rfl

@[simp] theorem connectInc_logs (s : Sys) : (connectInc s).logs = s.logs := rfl
@[simp] theorem connectInc_metrics (s : Sys) : (connectInc s).metrics = s.metrics := rfl
@[simp] theorem connectInc_delays (s : Sys) : (connectInc s).delays = s.delays := rfl
@[simp] theorem connectInc_connects (s : Sys) : (connectInc s).connects = s.connects + 1 := rfl
@[simp] theorem connectInc_disconnects (s : Sys) : (connectInc s).disconnects = s.disconnects := rfl
@[simp] theorem connectInc_mockDownloads (s : Sys) :
    (connectInc s).mockDownloads = s.mockDownloads := rfl
@[simp] theorem connectInc_attempts (s : Sys) : (connectInc s).attempts = s.attempts := rfl

@[simp] theorem discInc_logs (s : Sys) :
    (discInc s).logs = s.logs ++ [(LogLevel.debug, "FTP client disconnected")] := rfl
@[simp] theorem discInc_metrics (s : Sys) : (discInc s).metrics = s.metrics := rfl
@[simp] theorem discInc_delays (s : Sys) : (discInc s).delays = s.delays := rfl
@[simp] theorem discInc_connects (s : Sys) : (discInc s).connects = s.connects := rfl
@[simp] theorem discInc_disconnects (s : Sys) : (discInc s).disconnects = s.disconnects + 1 := rfl
@[simp] theorem discInc_mockDownloads (s : Sys) : (discInc s).mockDownloads = s.mockDownloads := rfl
@[simp] theorem discInc_attempts (s : Sys) : (discInc s).attempts = s.attempts := rfl

/-- The engine state just before the body of attempt `attempt` runs. -/
def attemptState (opName : String) (s : Sys) : Sys :=
  pushLog (tickAttempt s) .debug ("Attempting " ++ opName)

theorem retryFrom_succ_ok {α : Type} {op : Nat → Sys → Sys × Except String α}
    {opName : String} {maxR attempt fuel : Nat} {lastErr : Option String}
    {s s2 : Sys} {v : α}
    (h : op attempt (attemptState opName s) = (s2, Except.ok v)) :
    retryFrom op opName maxR attempt lastErr (fuel + 1) s
      = (if 1 < attempt then
           pushLog s2 .info (opName ++ " succeeded on attempt " ++ toString attempt)
         else s2,
         Except.ok v) := by
  rw [retryFrom]
  rw [show pushLog (tickAttempt s) .debug ("Attempting " ++ opName) = attemptState opName s from rfl]
  rw [h]

theorem retryFrom_succ_err {α : Type} {op : Nat → Sys → Sys × Except String α}
    {opName : String} {maxR attempt fuel : Nat} {lastErr : Option String}
    {s s2 : Sys} {e : String}
    (h : op attempt (attemptState opName s) = (s2, Except.error e)) :
    retryFrom op opName maxR attempt lastErr (fuel + 1) s
      = retryFrom op opName maxR (attempt + 1) (some e) fuel
          (if 0 < fuel then
             pushDelay (pushLog s2 .warn (opName ++ " failed on attempt " ++ toString attempt))
               (backoffDelay attempt)
           else pushLog s2 .warn (opName ++ " failed on attempt " ++ toString attempt)) := by
  rw [retryFrom]
  rw [show pushLog (tickAttempt s) .debug ("Attempting " ++ opName) = attemptState opName s from rfl]
  rw [h]

theorem retryFrom_allFail {α : Type} (op : Nat → Sys → Sys × Except String α)
    (opName : String) (maxR : Nat) (errOf : Nat → String)
    (hAtt : ∀ j s, ((op j s).1).attempts = s.attempts)
    (hDel : ∀ j s, ((op j s).1).delays = s.delays) :
    ∀ fuel attempt lastErr s, 0 < fuel →
      (∀ j, attempt ≤ j → j < attempt + fuel → ∀ s2, (op j s2).2 = Except.error (errOf j)) →
      ((retryFrom op opName maxR attempt lastErr fuel s).2
          = Except.error (errOf (attempt + fuel - 1))
        ∧ ((retryFrom op opName maxR attempt lastErr fuel s).1).attempts = s.attempts + fuel
        ∧ ((retryFrom op opName maxR attempt lastErr fuel s).1).delays
            = s.delays ++ (List.range' attempt (fuel - 1)).map backoffDelay
        ∧ (LogLevel.error, retryFailMsg opName maxR)
            ∈ ((retryFrom op opName maxR attempt lastErr fuel s).1).logs) := by
  intro fuel
  induction fuel with
  | zero => intro attempt lastErr s hpos; omega
  | succ n ih =>
      intro attempt lastErr s _ herr
      have hstep : op attempt (attemptState opName s)
          = ((op attempt (attemptState opName s)).1, Except.error (errOf attempt)) := by
        rw [← herr attempt (Nat.le_refl _) (by omega) (attemptState opName s)]
      rw [retryFrom_succ_err hstep]
      rcases Nat.eq_zero_or_pos n with hn | hn
      · subst hn
        simp only [Nat.lt_irrefl, if_false]
        rw [retryFrom]
        refine ⟨rfl, ?_, ?_, ?_⟩
        · simp [hAtt, attemptState]
        · simp [hDel, attemptState]
        · simp
      · simp only [hn, if_pos]
        obtain ⟨h1, h2, h3, h4⟩ := ih (attempt + 1) (some (errOf attempt))
          (pushDelay (pushLog (op attempt (attemptState opName s)).1 .warn
            (opName ++ " failed on attempt " ++ toString attempt)) (backoffDelay attempt))
          hn (by intro j hj1 hj2 s2; exact herr j (by omega) (by omega) s2)
        refine ⟨?_, ?_, ?_, h4⟩
        · rw [h1]; congr 2; omega
        · rw [h2]; simp [hAtt, attemptState]; omega
        · rw [h3]
          simp only [pushDelay_delays, pushLog_delays]
          rw [hDel, attemptState]
          simp only [pushLog_delays, tickAttempt_delays]
          rw [List.append_assoc]
          congr 1
          have hr : List.range' attempt (n + 1 - 1) = attempt :: List.range' (attempt + 1) (n - 1) := by
            have : n + 1 - 1 = (n - 1) + 1 := by omega
            rw [this, List.range'_succ]
          rw [hr]
          simp

theorem retryFrom_attempts_le {α : Type} (op : Nat → Sys → Sys × Except String α)
    (opName : String) (maxR : Nat)
    (hAtt : ∀ j s, ((op j s).1).attempts = s.attempts) :
    ∀ fuel attempt lastErr s,
      ((retryFrom op opName maxR attempt lastErr fuel s).1).attempts ≤ s.attempts + fuel := by
  intro fuel
  induction fuel with
  | zero => intro attempt lastErr s; simp [retryFrom]
  | succ n ih =>
      intro attempt lastErr s
      rcases hop : op attempt (attemptState opName s) with ⟨s2, r⟩
      cases r with
      | ok v =>
          rw [retryFrom_succ_ok hop]
          have : s2.attempts = s.attempts + 1 := by
            have := hAtt attempt (attemptState opName s)
            rw [hop] at this
            simpa [attemptState] using this
          split <;> simp [this]
      | error e =>
          rw [retryFrom_succ_err hop]
          have hs2 : s2.attempts = s.attempts + 1 := by
            have := hAtt attempt (attemptState opName s)
            rw [hop] at this
            simpa [attemptState] using this
          calc ((retryFrom op opName maxR (attempt + 1) (some e) n _).1).attempts
              ≤ _ + n := ih (attempt + 1) (some e) _
            _ ≤ s.attempts + (n + 1) := by split <;> simp [hs2] <;> omega

theorem retryFrom_metrics_frame {α : Type} (op : Nat → Sys → Sys × Except String α)
    (opName : String) (maxR : Nat)
    (hMet : ∀ j s, ((op j s).1).metrics = s.metrics) :
    ∀ fuel attempt lastErr s,
      ((retryFrom op opName maxR attempt lastErr fuel s).1).metrics = s.metrics := by
  intro fuel
  induction fuel with
  | zero => intro attempt lastErr s; simp [retryFrom]
  | succ n ih =>
      intro attempt lastErr s
      rcases hop : op attempt (attemptState opName s) with ⟨s2, r⟩
      have hs2 : s2.metrics = s.metrics := by
        have := hMet attempt (attemptState opName s)
        rw [hop] at this
        simpa [attemptState] using this
      cases r with
      | ok v => rw [retryFrom_succ_ok hop]; split <;> simp [hs2]
      | error e =>
          rw [retryFrom_succ_err hop]
          rw [ih (attempt + 1) (some e)]
          split <;> simp [hs2]

theorem retryFrom_mock_frame {α : Type} (op : Nat → Sys → Sys × Except String α)
    (opName : String) (maxR : Nat)
    (hMock : ∀ j s, ((op j s).1).mockDownloads = s.mockDownloads) :
    ∀ fuel attempt lastErr s,
      ((retryFrom op opName maxR attempt lastErr fuel s).1).mockDownloads = s.mockDownloads := by
  intro fuel
  induction fuel with
  | zero => intro attempt lastErr s; simp [retryFrom]
  | succ n ih =>
      intro attempt lastErr s
      rcases hop : op attempt (attemptState opName s) with ⟨s2, r⟩
      have hs2 : s2.mockDownloads = s.mockDownloads := by
        have := hMock attempt (attemptState opName s)
        rw [hop] at this
        simpa [attemptState] using this
      cases r with
      | ok v => rw [retryFrom_succ_ok hop]; split <;> simp [hs2]
      | error e =>
          rw [retryFrom_succ_err hop]
          rw [ih (attempt + 1) (some e)]
          split <;> simp [hs2]

theorem retryFrom_firstSuccess {α : Type} (f : Nat → Except String α)
    (opName : String) (maxR : Nat) :
    ∀ fuel attempt lastErr s (k : Nat) (v : α), attempt ≤ k → k < attempt + fuel →
      (∀ j, attempt ≤ j → j < k → ∃ e, f j = Except.error e) →
      f k = Except.ok v →
      ((retryFrom (liftOp f) opName maxR attempt lastErr fuel s).2 = Except.ok v
        ∧ ((retryFrom (liftOp f) opName maxR attempt lastErr fuel s).1).attempts
            = s.attempts + (k + 1 - attempt)
        ∧ ((retryFrom (liftOp f) opName maxR attempt lastErr fuel s).1).delays
            = s.delays ++ (List.range' attempt (k - attempt)).map backoffDelay) := by
  intro fuel
  induction fuel with
  | zero => intro attempt lastErr s k v h1 h2; omega
  | succ n ih =>
      intro attempt lastErr s k v hak hkf hfail hok
      rcases Nat.eq_or_lt_of_le hak with heq | hlt
      · subst heq
        have hop : liftOp f attempt (attemptState opName s)
            = (attemptState opName s, Except.ok v) := by
          simp [liftOp, hok]
        rw [retryFrom_succ_ok hop]
        refine ⟨by split <;> rfl, ?_, ?_⟩
        · split <;> simp [attemptState]
        · split <;> simp [attemptState]
      · obtain ⟨e, he⟩ := hfail attempt (Nat.le_refl _) hlt
        have hop : liftOp f attempt (attemptState opName s)
            = (attemptState opName s, Except.error e) := by
          simp [liftOp, he]
        rw [retryFrom_succ_err hop]
        have hn : 0 < n := by omega
        simp only [hn, if_pos]
        obtain ⟨h1, h2, h3⟩ := ih (attempt + 1) (some e)
          (pushDelay (pushLog (attemptState opName s) .warn
            (opName ++ " failed on attempt " ++ toString attempt)) (backoffDelay attempt))
          k v (by omega) (by omega)
          (by intro j hj1 hj2; exact hfail j (by omega) hj2) hok
        refine ⟨h1, ?_, ?_⟩
        · rw [h2]; simp [attemptState]; omega
        · rw [h3]
          simp only [pushDelay_delays, pushLog_delays, attemptState, tickAttempt_delays]
          rw [List.append_assoc]
          congr 1
          have hr : List.range' attempt (k - attempt)
              = attempt :: List.range' (attempt + 1) (k - (attempt + 1)) := by
            have : k - attempt = (k - (attempt + 1)) + 1 := by omega
            rw [this, List.range'_succ]
          rw [hr]
          simp

/-- C1: for every fallible operation and every `maxRetries ≥ 1`,
`retryOperation` runs the operation at most `maxRetries` times, returns
the first successful result, waits `min(1000ms * 2^(attempt-1), 10000ms)`
between consecutive failed attempts, and after the final failed attempt
fails with the last error, the failure carrying attempt-count context in
the emitted error log. -/
theorem retryOperation_spec {α : Type} (f : Nat → Except String α) (opName : String)
    (maxRetries : Nat) (hmr : 1 ≤ maxRetries) :
    ((retryOperation (liftOp f) opName maxRetries emptySys).1).attempts ≤ maxRetries
    ∧ (∀ k v, 1 ≤ k → k ≤ maxRetries →
         (∀ j, 1 ≤ j → j < k → ∃ e, f j = Except.error e) → f k = Except.ok v →
         (retryOperation (liftOp f) opName maxRetries emptySys).2 = Except.ok v
         ∧ ((retryOperation (liftOp f) opName maxRetries emptySys).1).attempts = k
         ∧ ((retryOperation (liftOp f) opName maxRetries emptySys).1).delays
             = (List.range' 1 (k - 1)).map backoffDelay)
    ∧ (∀ e, (∀ j, 1 ≤ j → j < maxRetries → ∃ e2, f j = Except.error e2) →
         f maxRetries = Except.error e →
         (retryOperation (liftOp f) opName maxRetries emptySys).2 = Except.error e
         ∧ ((retryOperation (liftOp f) opName maxRetries emptySys).1).attempts = maxRetries
         ∧ ((retryOperation (liftOp f) opName maxRetries emptySys).1).delays
             = (List.range' 1 (maxRetries - 1)).map backoffDelay
         ∧ (LogLevel.error, retryFailMsg opName maxRetries)
             ∈ ((retryOperation (liftOp f) opName maxRetries emptySys).1).logs) := by
  refine ⟨?_, ?_, ?_⟩
  · have := retryFrom_attempts_le (liftOp f) opName maxRetries (fun j s => rfl)
      maxRetries 1 none emptySys
    simpa [retryOperation, emptySys] using this
  · intro k v hk1 hk2 hfail hok
    have := retryFrom_firstSuccess f opName maxRetries maxRetries 1 none emptySys k v
      hk1 (by omega) hfail hok
    simpa [retryOperation, emptySys] using this
  · intro e hfail hlast
    have herr : ∀ j, 1 ≤ j → j < 1 + maxRetries → ∀ s2,
        (liftOp f j s2).2 = Except.error
          (match f j with | Except.error e2 => e2 | Except.ok _ => "" : String) := by
      intro j hj1 hj2 s2
      rcases Nat.lt_or_ge j maxRetries with hj | hj
      · obtain ⟨e2, he2⟩ := hfail j hj1 hj
        simp [liftOp, he2]
      · have : j = maxRetries := by omega
        subst this
        simp [liftOp, hlast]
    have := retryFrom_allFail (liftOp f) opName maxRetries
      (fun j => (match f j with | Except.error e2 => e2 | Except.ok _ => "" : String))
      (fun j s => rfl) (fun j s => rfl) maxRetries 1 none emptySys (by omega) herr
    obtain ⟨h1, h2, h3, h4⟩ := this
    have hidx : 1 + maxRetries - 1 = maxRetries := by omega
    simp only [hidx, hlast] at h1
    exact ⟨by simpa [retryOperation] using h1,
           by simpa [retryOperation, emptySys] using h2,
           by simpa [retryOperation, emptySys] using h3,
           by simpa [retryOperation] using h4⟩

/-- A sample operation failing on attempt 1 and succeeding on attempt 2. -/
def sampleRetryOp : Nat → Except String Nat :=
  fun j => if j = 1 then Except.error "boom" else Except.ok 42

/-- Witness for C1: the sample operation under `maxRetries = 3` succeeds
on attempt 2 after one 1000ms backoff wait. -/
theorem retryOperation_spec_witness :
    (retryOperation (liftOp sampleRetryOp) "op" 3 emptySys).2 = Except.ok 42
    ∧ ((retryOperation (liftOp sampleRetryOp) "op" 3 emptySys).1).attempts = 2
    ∧ ((retryOperation (liftOp sampleRetryOp) "op" 3 emptySys).1).delays
        = (List.range' 1 1).map backoffDelay := by
  have h := (retryOperation_spec sampleRetryOp "op" 3 (by decide)).2.1 2 42
    (by decide) (by decide)
    (by
      intro j hj1 hj2
      have : j = 1 := by omega
      subst this
      exact ⟨"boom", rfl⟩)
    (by decide)
  exact h

/-- `testConnectionBody` never touches the metrics sequence. -/
theorem testConnectionBody_metrics (fa : Bool) (connectR listR : Nat → Except String Unit)
    (j : Nat) (s : Sys) :
    ((testConnectionBody fa connectR listR j s).1).metrics = s.metrics := by
  cases fa with
  | false => simp [testConnectionBody]
  | true =>
      cases hc : connectR j with
      | error e => simp [testConnectionBody, hc]
      | ok u =>
          cases hl : listR j with
          | error e => simp [testConnectionBody, hc, hl]
          | ok u2 => simp [testConnectionBody, hc, hl]

/-- C3 counterexample: with an unreachable host (every connect attempt
fails) and `maxRetries = 3`, `testConnection` does not return `false` —
it fails with the connect error — and appends zero `TransferMetric`
entries, not 3. -/
theorem testConnection_claim_cex :
    (testConnection true (fun _ => Except.error "unreachable")
        (fun _ => Except.ok ()) 3 emptySys).2 = Except.error "unreachable"
    ∧ ((testConnection true (fun _ => Except.error "unreachable")
        (fun _ => Except.ok ()) 3 emptySys).1).metrics.length = 0 := ⟨rfl, rfl⟩

/-- C3 (amended): for every config with an unreachable host (every
connect attempt fails), `testConnection` makes exactly `maxRetries`
attempts and then fails with (throws) the last connect error — it never
returns `false` — and appends no TransferMetric entries at all (metrics
are recorded only by `downloadFile`). -/
theorem testConnection_unreachable (connectR listR : Nat → Except String Unit)
    (errOf : Nat → String) (maxRetries : Nat) (hmr : 1 ≤ maxRetries)
    (hconn : ∀ j, connectR j = Except.error (errOf j)) :
    (testConnection true connectR listR maxRetries emptySys).2
        = Except.error (errOf maxRetries)
    ∧ ((testConnection true connectR listR maxRetries emptySys).1).attempts = maxRetries
    ∧ ((testConnection true connectR listR maxRetries emptySys).1).metrics = []
    ∧ ∀ b, (testConnection true connectR listR maxRetries emptySys).2 ≠ Except.ok b := by
  have hbody : ∀ j s2, testConnectionBody true connectR listR j s2
      = (pushLog (pushLog (pushLog s2 .info "Testing FTP connection")
            .debug "Initializing FTP client") .error "Failed to initialize FTP client",
         Except.error (errOf j)) := by
    intro j s2
    simp [testConnectionBody, hconn j]
  have hAtt : ∀ j s2, ((testConnectionBody true connectR listR j s2).1).attempts
      = s2.attempts := by intro j s2; rw [hbody]; simp
  have hDel : ∀ j s2, ((testConnectionBody true connectR listR j s2).1).delays
      = s2.delays := by intro j s2; rw [hbody]; simp
  have herr : ∀ j, 1 ≤ j → j < 1 + maxRetries → ∀ s2,
      (testConnectionBody true connectR listR j s2).2 = Except.error (errOf j) := by
    intro j _ _ s2; rw [hbody]
  obtain ⟨h1, h2, _, _⟩ := retryFrom_allFail (testConnectionBody true connectR listR)
    "Connection Test" maxRetries errOf hAtt hDel maxRetries 1 none emptySys (by omega) herr
  have hmet := retryFrom_metrics_frame (testConnectionBody true connectR listR)
    "Connection Test" maxRetries (testConnectionBody_metrics true connectR listR)
    maxRetries 1 none emptySys
  have hidx : 1 + maxRetries - 1 = maxRetries := by omega
  rw [hidx] at h1
  refine ⟨by simpa [testConnection, retryOperation] using h1,
          by simpa [testConnection, retryOperation, emptySys] using h2,
          by simpa [testConnection, retryOperation, emptySys] using hmet,
          ?_⟩
  intro b hb
  rw [show testConnection true connectR listR maxRetries emptySys
      = retryFrom (testConnectionBody true connectR listR) "Connection Test"
          maxRetries 1 none maxRetries emptySys from rfl] at hb
  rw [h1] at hb
  exact Except.noConfusion hb

/-- Witness for C3 (amended) at a concrete unreachable host and
`maxRetries = 3`. -/
theorem testConnection_unreachable_witness :
    (testConnection true (fun _ => Except.error "connect ECONNREFUSED")
        (fun _ => Except.ok ()) 3 emptySys).2 = Except.error "connect ECONNREFUSED"
    ∧ ((testConnection true (fun _ => Except.error "connect ECONNREFUSED")
        (fun _ => Except.ok ()) 3 emptySys).1).attempts = 3
    ∧ ((testConnection true (fun _ => Except.error "connect ECONNREFUSED")
        (fun _ => Except.ok ()) 3 emptySys).1).metrics = [] := by
  have h := testConnection_unreachable (fun _ => Except.error "connect ECONNREFUSED")
    (fun _ => Except.ok ()) (fun _ => "connect ECONNREFUSED") 3 (by decide) (fun _ => rfl)
  exact ⟨h.1, h.2.1, h.2.2.1⟩

/-- C5: in `testConnection` the connection handle is NOT released on
every exit path — when `connect` succeeds and the subsequent `list('/')`
raises, the attempt exits with the handle still open (1 connect, 0
disconnects), contradicting the claim (the other operations use
try/finally; `testConnection` does not). -/
theorem testConnection_leaks_handle_on_list_error :
    ((testConnection true (fun _ => Except.ok ())
        (fun _ => Except.error "LIST command failed") 1 emptySys).1).connects = 1
    ∧ ((testConnection true (fun _ => Except.ok ())
        (fun _ => Except.error "LIST command failed") 1 emptySys).1).disconnects = 0
    ∧ (testConnection true (fun _ => Except.ok ())
        (fun _ => Except.error "LIST command failed") 1 emptySys).2
        = Except.error "LIST command failed" := ⟨rfl, rfl, rfl⟩

/-- With the transport available, a `downloadFile` attempt fails exactly
with its `attemptError`. -/
theorem downloadFileBody_snd (connectR transferR : Nat → Except String Unit)
    (sizeR : Nat → Nat) (cfg : FTPConfig) (j : Nat) (e : String)
    (h : attemptError connectR transferR j = some e) (s : Sys) :
    (downloadFileBody true connectR transferR sizeR cfg j s).2 = Except.error e := by
  unfold attemptError at h
  cases hc : connectR j with
  | error e2 =>
      rw [hc] at h
      simp only [Option.some.injEq] at h
      simp [downloadFileBody, hc, h]
  | ok u =>
      rw [hc] at h
      cases ht : transferR j with
      | error e2 =>
          rw [ht] at h
          simp only [Option.some.injEq] at h
          simp [downloadFileBody, hc, ht, h]
      | ok u2 => rw [ht] at h; exact Option.noConfusion h

/-- With the transport available, `downloadFileBody` never invokes the
synthetic generator. -/
theorem downloadFileBody_mock (connectR transferR : Nat → Except String Unit)
    (sizeR : Nat → Nat) (cfg : FTPConfig) (j : Nat) (s : Sys) :
    ((downloadFileBody true connectR transferR sizeR cfg j s).1).mockDownloads
      = s.mockDownloads := by
  cases hc : connectR j with
  | error e => simp [downloadFileBody, hc]
  | ok u =>
      cases ht : transferR j with
      | error e => simp [downloadFileBody, hc, ht]
      | ok u2 => simp [downloadFileBody, hc, ht]

/-- `downloadFileBody` leaves the attempt counter and the backoff-delay
trace to the engine. -/
theorem downloadFileBody_attempts (fa : Bool) (connectR transferR : Nat → Except String Unit)
    (sizeR : Nat → Nat) (cfg : FTPConfig) (j : Nat) (s : Sys) :
    ((downloadFileBody fa connectR transferR sizeR cfg j s).1).attempts = s.attempts := by
  cases fa with
  | false => simp [downloadFileBody, mockDownload]
  | true =>
      cases hc : connectR j with
      | error e => simp [downloadFileBody, hc]
      | ok u =>
          cases ht : transferR j with
          | error e => simp [downloadFileBody, hc, ht]
          | ok u2 => simp [downloadFileBody, hc, ht]

theorem downloadFileBody_delays (fa : Bool) (connectR transferR : Nat → Except String Unit)
    (sizeR : Nat → Nat) (cfg : FTPConfig) (j : Nat) (s : Sys) :
    ((downloadFileBody fa connectR transferR sizeR cfg j s).1).delays = s.delays := by
  cases fa with
  | false => simp [downloadFileBody, mockDownload]
  | true =>
      cases hc : connectR j with
      | error e => simp [downloadFileBody, hc]
      | ok u =>
          cases ht : transferR j with
          | error e => simp [downloadFileBody, hc, ht]
          | ok u2 => simp [downloadFileBody, hc, ht]

/-- C2 counterexample: a download whose transport is available but whose
every attempt fails (here: connect refused, `maxRetries = 3`) does NOT
fall back to the synthetic generator — `downloadFile` fails with the
last error and `mockDownload` never runs. -/
theorem downloadFile_claim_cex :
    (downloadFile true (fun _ => Except.error "ECONNREFUSED") (fun _ => Except.ok ())
        (fun _ => 0) sampleCfg 3 emptySys).2 = Except.error "ECONNREFUSED"
    ∧ ((downloadFile true (fun _ => Except.error "ECONNREFUSED") (fun _ => Except.ok ())
        (fun _ => 0) sampleCfg 3 emptySys).1).mockDownloads = 0 := ⟨rfl, rfl⟩

/-- C2 (amended): the synthetic fallback of `downloadFile` is invoked
exactly when the Transport Capability is entirely unavailable (the FTP
library failed to load), in which case the mock download is used
immediately on the first attempt and flagged in the emitted logs; when
the transport is available the synthetic generator is never invoked, and
a download in which all retry attempts fail propagates the last error
instead of falling back. -/
theorem downloadFile_fallback_spec :
    (∀ (cfg : FTPConfig) (connectR transferR : Nat → Except String Unit)
       (sizeR : Nat → Nat) (maxRetries : Nat), 1 ≤ maxRetries →
       (downloadFile false connectR transferR sizeR cfg maxRetries emptySys).2
           = Except.ok "mock_downloaded.xlsx"
       ∧ ((downloadFile false connectR transferR sizeR cfg maxRetries emptySys).1).mockDownloads = 1
       ∧ ((downloadFile false connectR transferR sizeR cfg maxRetries emptySys).1).attempts = 1
       ∧ (LogLevel.info, "Using mock FTP download for development/fallback")
           ∈ ((downloadFile false connectR transferR sizeR cfg maxRetries emptySys).1).logs)
    ∧ (∀ (cfg : FTPConfig) (connectR transferR : Nat → Except String Unit)
         (sizeR : Nat → Nat) (maxRetries : Nat) (s : Sys),
         ((downloadFile true connectR transferR sizeR cfg maxRetries s).1).mockDownloads
           = s.mockDownloads)
    ∧ (∀ (cfg : FTPConfig) (connectR transferR : Nat → Except String Unit)
         (sizeR : Nat → Nat) (errOf : Nat → String) (maxRetries : Nat), 1 ≤ maxRetries →
         (∀ j, attemptError connectR transferR j = some (errOf j)) →
         (downloadFile true connectR transferR sizeR cfg maxRetries emptySys).2
           = Except.error (errOf maxRetries)) := by
  refine ⟨?_, ?_, ?_⟩
  · intro cfg connectR transferR sizeR maxRetries hmr
    obtain ⟨m, rfl⟩ : ∃ m, maxRetries = m + 1 := ⟨maxRetries - 1, by omega⟩
    have hop : downloadFileBody false connectR transferR sizeR cfg 1
        (attemptState "File Download" emptySys)
        = ((mockDownload (pushLog (pushLog (attemptState "File Download" emptySys)
              .info "Starting file download")
              .info "FTP library not available, using mock download")).1,
           Except.ok "mock_downloaded.xlsx") := rfl
    rw [show downloadFile false connectR transferR sizeR cfg (m + 1) emptySys
        = retryFrom (downloadFileBody false connectR transferR sizeR cfg) "File Download"
            (m + 1) 1 none (m + 1) emptySys from rfl]
    rw [retryFrom_succ_ok hop]
    refine ⟨rfl, ?_, ?_, ?_⟩
    · simp [mockDownload, attemptState, emptySys]
    · simp [mockDownload, attemptState, emptySys]
    · simp [mockDownload, attemptState, emptySys]
  · intro cfg connectR transferR sizeR maxRetries s
    exact retryFrom_mock_frame (downloadFileBody true connectR transferR sizeR cfg)
      "File Download" maxRetries (downloadFileBody_mock connectR transferR sizeR cfg)
      maxRetries 1 none s
  · intro cfg connectR transferR sizeR errOf maxRetries hmr hAE
    obtain ⟨h1, _, _, _⟩ := retryFrom_allFail (downloadFileBody true connectR transferR sizeR cfg)
      "File Download" maxRetries errOf
      (downloadFileBody_attempts true connectR transferR sizeR cfg)
      (downloadFileBody_delays true connectR transferR sizeR cfg)
      maxRetries 1 none emptySys (by omega)
      (by intro j _ _ s2; exact downloadFileBody_snd connectR transferR sizeR cfg j
            (errOf j) (hAE j) s2)
    have hidx : 1 + maxRetries - 1 = maxRetries := by omega
    rw [hidx] at h1
    simpa [downloadFile, retryOperation] using h1

/-- Witness for C2 (amended): concrete unavailable-transport and
failing-transport runs. -/
theorem downloadFile_fallback_spec_witness :
    ((downloadFile false (fun _ => Except.ok ()) (fun _ => Except.ok ())
        (fun _ => 0) sampleCfg 3 emptySys).2 = Except.ok "mock_downloaded.xlsx"
      ∧ ((downloadFile false (fun _ => Except.ok ()) (fun _ => Except.ok ())
          (fun _ => 0) sampleCfg 3 emptySys).1).mockDownloads = 1)
    ∧ (downloadFile true (fun _ => Except.error "timeout") (fun _ => Except.ok ())
        (fun _ => 0) sampleCfg 2 emptySys).2 = Except.error "timeout" := by
  refine ⟨⟨?_, ?_⟩, ?_⟩
  · exact (downloadFile_fallback_spec.1 sampleCfg (fun _ => Except.ok ())
      (fun _ => Except.ok ()) (fun _ => 0) 3 (by decide)).1
  · exact (downloadFile_fallback_spec.1 sampleCfg (fun _ => Except.ok ())
      (fun _ => Except.ok ()) (fun _ => 0) 3 (by decide)).2.1
  · exact downloadFile_fallback_spec.2.2 sampleCfg (fun _ => Except.error "timeout")
      (fun _ => Except.ok ()) (fun _ => 0) (fun _ => "timeout") 2 (by decide) (fun _ => rfl)

/-- C4: the file validator fails with `NotFound` when the artifact is
absent, `Empty` when it has zero bytes, `TooLarge` when it exceeds the
configured maximum, and otherwise succeeds — with a warning (not a
failure) exactly when the configured filename's extension is non-empty
and outside the accepted-extension set. -/
theorem validateFile_spec (fileExists : Bool) (size maxFileSize : Nat)
    (supportedFileTypes : List String) (filename : String) :
    (fileExists = false →
       validateFile fileExists size maxFileSize supportedFileTypes filename
         = Except.error ValidationError.notFound)
    ∧ (fileExists = true → size = 0 →
       validateFile fileExists size maxFileSize supportedFileTypes filename
         = Except.error ValidationError.empty)
    ∧ (fileExists = true → 0 < size → maxFileSize < size →
       validateFile fileExists size maxFileSize supportedFileTypes filename
         = Except.error ValidationError.tooLarge)
    ∧ (fileExists = true → 0 < size → size ≤ maxFileSize →
       ∃ w, validateFile fileExists size maxFileSize supportedFileTypes filename
           = Except.ok w
         ∧ (w = true ↔ fileExtension filename ≠ ""
              ∧ ("." ++ fileExtension filename) ∉ supportedFileTypes)) := by
  refine ⟨?_, ?_, ?_, ?_⟩
  · intro h; subst h; simp [validateFile]
  · intro h hz; subst h; simp [validateFile, hz]
  · intro h hz hl; subst h
    simp only [validateFile, Bool.not_true, Bool.false_eq_true, if_false]
    rw [if_neg (by omega), if_pos hl]
  · intro h hz hle; subst h
    refine ⟨(fileExtension filename != "")
        && !(supportedFileTypes.contains ("." ++ fileExtension filename)), ?_, ?_⟩
    · simp only [validateFile, Bool.not_true, Bool.false_eq_true, if_false]
      rw [if_neg (by omega), if_neg (by omega)]
    · simp [List.elem_iff]

/-- Witness for C4: a missing artifact fails with `NotFound`; an
oversized artifact fails with `TooLarge`. -/
theorem validateFile_spec_witness :
    validateFile false 0 (10 * 1024 * 1024) supportedFileTypesDev "data.xls"
      = Except.error ValidationError.notFound
    ∧ validateFile true 20 10 supportedFileTypesDev "data.csv"
      = Except.error ValidationError.tooLarge :=
  ⟨(validateFile_spec false 0 (10 * 1024 * 1024) supportedFileTypesDev "data.xls").1 rfl,
   (validateFile_spec true 20 10 supportedFileTypesDev "data.csv").2.2.1 rfl
     (by decide) (by decide)⟩

theorem processDataForCharts_ok (rawData : List (List String)) (m : ChartModel)
    (h : processDataForCharts rawData = Except.ok m) :
    m.labels = (dataRowsOf rawData).mapIdx rowLabel
    ∧ m.datasets = (candidateColumns (headersOf rawData).length).filterMap (fun i =>
        let columnData := columnOf (dataRowsOf rawData) i
        if columnData.any (fun v => v != 0) then some columnData else none)
    ∧ m.pie = m.labels.mapIdx (fun index label =>
        (label, jsOr1 (intAbs ((m.datasets.headD []).getD index 0))))
    ∧ m.datasets ≠ [] := by
  unfold processDataForCharts at h
  split at h
  · exact absurd h (by simp)
  · simp only [] at h
    split at h
    · exact absurd h (by simp)
    · split at h
      · exact absurd h (by simp)
      · rename_i hne
        injection h with h2
        subst h2
        refine ⟨rfl, rfl, rfl, by simpa using hne⟩

/-- The proportional value is always positive: `|v| || 1` floors zero to
one and is otherwise the positive absolute value. -/
theorem jsOr1_intAbs_pos (v : Int) : 0 < jsOr1 (intAbs v) := by
  unfold jsOr1 intAbs
  split
  · omega
  · rename_i hne
    have : (0 : Int) ≤ (v.natAbs : Int) := Int.natCast_nonneg _
    omega

/-- Every retained dataset has the length of the data-row list. -/
theorem columnOf_length (dataRows : List (List String)) (i : Nat) :
    (columnOf dataRows i).length = dataRows.length := by
  simp [columnOf]

theorem processDataForCharts_d0_length (rawData : List (List String)) (m : ChartModel)
    (h : processDataForCharts rawData = Except.ok m) :
    (m.datasets.headD []).length = m.labels.length := by
  obtain ⟨hlab, hds, _, hne⟩ := processDataForCharts_ok rawData m h
  have hmem : m.datasets.headD [] ∈ m.datasets := by
    cases hm : m.datasets with
    | nil => exact absurd hm hne
    | cons a l => simp [hm]
  rw [hds] at hmem ⊢
  obtain ⟨i, _, hfi⟩ := List.mem_filterMap.mp hmem
  simp only [] at hfi
  split at hfi
  · injection hfi with hfi
    rw [← hfi, columnOf_length, hlab, List.length_mapIdx]
  · exact absurd hfi (by simp)

/-- C6: the series builder retains at most 4 datasets; every retained
dataset is the numeric coercion (non-numeric cells become 0) of one of
the data columns `1 .. min (headerCount - 1) 4`, and contains at least
one non-zero value. -/
theorem processDataForCharts_datasets_bounded (rawData : List (List String))
    (m : ChartModel) (h : processDataForCharts rawData = Except.ok m) :
    m.datasets.length ≤ 4
    ∧ ∀ d ∈ m.datasets, ∃ i, 1 ≤ i ∧ i ≤ min ((headersOf rawData).length - 1) 4
        ∧ d = columnOf (dataRowsOf rawData) i ∧ ∃ x ∈ d, x ≠ 0 := by
  obtain ⟨_, hds, _, _⟩ := processDataForCharts_ok rawData m h
  constructor
  · rw [hds]
    calc (List.filterMap _ _).length
        ≤ (candidateColumns (headersOf rawData).length).length :=
          List.length_filterMap_le _ _
      _ ≤ 4 := by
          simp only [candidateColumns, List.length_range']
          omega
  · intro d hd
    rw [hds] at hd
    obtain ⟨i, hi, hfi⟩ := List.mem_filterMap.mp hd
    have hir := List.mem_range'_1.mp (by simpa [candidateColumns] using hi)
    simp only [] at hfi
    split at hfi
    · rename_i hany
      injection hfi with hfi
      subst hfi
      refine ⟨i, hir.1, by omega, rfl, ?_⟩
      obtain ⟨x, hx, hxne⟩ := List.any_eq_true.mp hany
      exact ⟨x, hx, by simpa using hxne⟩
    · exact absurd hfi (by simp)

/-- Witness for C6: the scenario-A grid yields one retained dataset. -/
theorem processDataForCharts_datasets_bounded_witness :
    processDataForCharts scenarioA = Except.ok scenarioAModel
    ∧ scenarioAModel.datasets.length ≤ 4 :=
  ⟨rfl, (processDataForCharts_datasets_bounded scenarioA scenarioAModel rfl).1⟩

/-- C7: every proportional-breakdown entry pairs the row label with the
absolute value of the corresponding entry of the first retained dataset
floored at 1 — hence is always positive — and on scenario A the grid
`[[Month,Sales],[Jan,100],[Feb,bad],[Mar,300]]` yields labels
`[Jan,Feb,Mar]`, the single dataset `[100,0,300]`, and proportional
values `[100,1,300]`. -/
theorem processDataForCharts_pie_spec :
    (∀ (rawData : List (List String)) (m : ChartModel),
       processDataForCharts rawData = Except.ok m →
       (∀ p ∈ m.pie, 0 < p.2)
       ∧ (∀ i, i < m.pie.length →
           ∃ lab v, m.labels.get? i = some lab
             ∧ (m.datasets.headD []).get? i = some v
             ∧ m.pie.get? i = some (lab, jsOr1 (intAbs v))))
    ∧ processDataForCharts scenarioA = Except.ok scenarioAModel := by
  constructor
  · intro rawData m h
    obtain ⟨hlab, hds, hpie, hne⟩ := processDataForCharts_ok rawData m h
    have hd0len := processDataForCharts_d0_length rawData m h
    have hpielen : m.pie.length = m.labels.length := by
      rw [hpie, List.length_mapIdx]
    have key : ∀ i, i < m.pie.length →
        ∃ lab v, m.labels.get? i = some lab
          ∧ (m.datasets.headD []).get? i = some v
          ∧ m.pie.get? i = some (lab, jsOr1 (intAbs v)) := by
      intro i hilen
      have hilab : i < m.labels.length := by omega
      have hid0 : i < (m.datasets.headD []).length := by omega
      have hlabget : m.labels.get? i = some (m.labels.get ⟨i, hilab⟩) :=
        List.get?_eq_get hilab
      have hd0get : (m.datasets.headD []).get? i
          = some ((m.datasets.headD []).get ⟨i, hid0⟩) := List.get?_eq_get hid0
      refine ⟨m.labels.get ⟨i, hilab⟩, (m.datasets.headD []).get ⟨i, hid0⟩,
        hlabget, hd0get, ?_⟩
      rw [hpie, List.get?_eq_getElem?, List.getElem?_mapIdx,
        ← List.get?_eq_getElem?, hlabget]
      have hsome : (m.datasets.headD [])[i]? = some ((m.datasets.headD []).get ⟨i, hid0⟩) := by
        rw [← List.get?_eq_getElem?]
        exact hd0get
      simp only [Option.map_some', List.getD_eq_getElem?_getD, hsome, Option.getD_some]
    refine ⟨?_, key⟩
    intro p hp
    obtain ⟨i, hget⟩ := List.mem_iff_get?.mp hp
    have hilen : i < m.pie.length := by
      by_contra hc
      rw [List.get?_eq_getElem?, List.getElem?_eq_none (by omega)] at hget
      exact Option.noConfusion hget
    obtain ⟨lab, v, _, _, hpget⟩ := key i hilen
    rw [hget] at hpget
    injection hpget with hpget
    subst hpget
    simpa using jsOr1_intAbs_pos v
  · rfl

/-- Witness for C7: the theorem applied at scenario A gives positivity of
the concrete proportional values. -/
theorem processDataForCharts_pie_spec_witness :
    (processDataForCharts scenarioA = Except.ok scenarioAModel)
    ∧ 0 < (scenarioAModel.pie.getD 1 ("", 0)).2 := by
  refine ⟨processDataForCharts_pie_spec.2, ?_⟩
  have hmem : scenarioAModel.pie.getD 1 ("", 0) ∈ scenarioAModel.pie := by decide
  exact (processDataForCharts_pie_spec.1 scenarioA scenarioAModel rfl).1 _ hmem

/-- With threshold `debug` every severity is admitted. -/
theorem shouldLog_debug (lvl : LogLevel) : shouldLog LogLevel.debug lvl = true := by
  cases lvl <;> rfl

/-- One `log` call keeps the queue within capacity. -/
theorem logStep_length_le (maxQ : Nat) (cfg : LogLevel) (q : List LogEntry) (e : LogEntry)
    (h : q.length ≤ maxQ) : (logStep maxQ cfg q e).length ≤ maxQ := by
  unfold logStep
  split
  · simp only []
    split
    · rename_i hgt
      simp only [List.length_drop]
      omega
    · rename_i hle
      simp only [List.length_append, List.length_cons, List.length_nil,
        Nat.not_lt] at hle ⊢
      omega
  · exact h

/-- A gate-open `log` call is append-then-keep-the-most-recent. -/
theorem logStep_debug_eq (maxQ : Nat) (q0 : List LogEntry) (e : LogEntry) :
    logStep maxQ LogLevel.debug q0 e
      = (q0 ++ [e]).drop (q0.length + 1 - maxQ) := by
  unfold logStep
  rw [if_pos (shouldLog_debug e.level)]
  simp only [List.length_append, List.length_cons, List.length_nil]
  split
  · rename_i hgt
    congr 1
  · rename_i hle
    rw [Nat.sub_eq_zero_of_le (by omega), List.drop_zero]

/-- Folding `log` over a sequence of admitted events keeps exactly the
most recent `maxQ` of `q0 ++ es`. -/
theorem logQueue_foldl (maxQ : Nat) (hpos : 0 < maxQ) :
    ∀ (es : List LogEntry) (q0 : List LogEntry), q0.length ≤ maxQ →
      List.foldl (logStep maxQ LogLevel.debug) q0 es
        = (q0 ++ es).drop (q0.length + es.length - maxQ) := by
  intro es
  induction es with
  | nil =>
      intro q0 h
      simp [Nat.sub_eq_zero_of_le h]
  | cons e es ih =>
      intro q0 h
      rw [List.foldl_cons, logStep_debug_eq,
        ih ((q0 ++ [e]).drop (q0.length + 1 - maxQ))
          (by simp only [List.length_drop, List.length_append, List.length_cons,
                List.length_nil]; omega)]
      rcases Nat.lt_or_ge q0.length maxQ with hc | hc
      · have hz : q0.length + 1 - maxQ = 0 := by omega
        rw [hz, List.drop_zero, List.append_assoc, List.singleton_append]
        congr 1
        simp only [List.length_append, List.length_cons, List.length_nil]
        omega
      · have hq : q0.length = maxQ := by omega
        rw [← List.drop_append_of_le_length
              (by simp only [List.length_append, List.length_cons, List.length_nil]; omega),
            List.drop_drop, List.append_assoc, List.singleton_append]
        congr 1
        simp only [List.length_drop, List.length_append, List.length_cons, List.length_nil]
        omega

/-- The queue bound is preserved over any event sequence. -/
theorem logQueue_foldl_length (maxQ : Nat) (cfg : LogLevel) (es : List LogEntry) :
    ∀ q0 : List LogEntry, q0.length ≤ maxQ →
      (List.foldl (logStep maxQ cfg) q0 es).length ≤ maxQ := by
  induction es with
  | nil => intro q0 h; simpa using h
  | cons e es ih =>
      intro q0 h
      rw [List.foldl_cons]
      exact ih _ (logStep_length_le maxQ cfg q0 e h)

/-- C8: for every sequence of logged events the in-memory queue never
exceeds its capacity of 100, overflow drops the oldest entries first
(what remains is always the most recent 100), and in particular 150
debug events leave exactly the 100 most recent in order. -/
theorem logQueue_bounded (es q0 : List LogEntry) (h : q0.length ≤ 100) :
    (List.foldl (logStep 100 LogLevel.debug) q0 es).length ≤ 100
    ∧ List.foldl (logStep 100 LogLevel.debug) [] es = es.drop (es.length - 100)
    ∧ (es.length = 150 →
        List.foldl (logStep 100 LogLevel.debug) [] es = es.drop 50) := by
  have hmain := logQueue_foldl 100 (by decide) es [] (by simp)
  simp only [List.nil_append, List.length_nil, Nat.zero_add] at hmain
  refine ⟨logQueue_foldl_length 100 LogLevel.debug es q0 h, hmain, ?_⟩
  intro h150
  rw [hmain, h150]

/-- 150 debug events. -/
def demoEvents : List LogEntry :=
  (List.range 150).map (fun i => { level := LogLevel.debug, message := toString i })

/-- Witness for C8: feeding the 150 debug events into an empty queue of
capacity 100 retains exactly the 100 most recent in order. -/
theorem logQueue_bounded_witness :
    (List.foldl (logStep 100 LogLevel.debug) [] demoEvents).length ≤ 100
    ∧ List.foldl (logStep 100 LogLevel.debug) [] demoEvents = demoEvents.drop 50 := by
  refine ⟨(logQueue_bounded demoEvents [] (by decide)).1, ?_⟩
  exact (logQueue_bounded demoEvents [] (by decide)).2.2
    (by simp [demoEvents])

theorem hexVal_digitChar (n : Nat) (h : n < 16) : hexVal (Nat.digitChar n) = some n := by
  interval_cases n <;> rfl

/-- Decoding inverts the escaping of a single character: if the parser
accepts `tail` as `(s, rest)`, it accepts `escChar c ++ tail` as
`(c :: s, rest)`. -/
theorem parseStrBody_escChar (c : Char) (tail : List Char) (s rest : List Char)
    (h : parseStrBody tail = some (s, rest)) :
    parseStrBody (escChar c ++ tail) = some (c :: s, rest) := by
  by_cases h1 : c = '"'
  · subst h1; simp [escChar, parseStrBody, parseEsc, unescChar, h]
  by_cases h2 : c = '\\'
  · subst h2; simp [escChar, parseStrBody, parseEsc, unescChar, h]
  by_cases h3 : c = '\x08'
  · subst h3; simp [escChar, parseStrBody, parseEsc, unescChar, h]
  by_cases h4 : c = '\x09'
  · subst h4; simp [escChar, parseStrBody, parseEsc, unescChar, h]
  by_cases h5 : c = '\x0a'
  · subst h5; simp [escChar, parseStrBody, parseEsc, unescChar, h]
  by_cases h6 : c = '\x0c'
  · subst h6; simp [escChar, parseStrBody, parseEsc, unescChar, h]
  by_cases h7 : c = '\x0d'
  · subst h7; simp [escChar, parseStrBody, parseEsc, unescChar, h]
  by_cases h8 : c.toNat < 32
  · have hesc : escChar c
        = ['\\', 'u', '0', '0', Nat.digitChar (c.toNat / 16), Nat.digitChar (c.toNat % 16)] := by
      simp [escChar, h1, h2, h3, h4, h5, h6, h7, h8]
    have hdiv : hexVal (Nat.digitChar (c.toNat / 16)) = some (c.toNat / 16) :=
      hexVal_digitChar _ (by omega)
    have hmod : hexVal (Nat.digitChar (c.toNat % 16)) = some (c.toNat % 16) :=
      hexVal_digitChar _ (by omega)
    rw [hesc]
    show parseStrBody ('\\' :: 'u' :: '0' :: '0' :: Nat.digitChar (c.toNat / 16)
        :: Nat.digitChar (c.toNat % 16) :: tail) = some (c :: s, rest)
    rw [parseStrBody, if_neg (by decide : ¬ ('\\' : Char) = '"'),
      if_pos (rfl : ('\\' : Char) = '\\')]
    rw [parseEsc, if_pos (rfl : ('u' : Char) = 'u')]
    rw [parseHexEsc]
    rw [show hexVal '0' = some 0 from rfl, hdiv, hmod]
    simp only [h, Option.map_some']
    have hval : ((0 * 16 + 0) * 16 + c.toNat / 16) * 16 + c.toNat % 16 = c.toNat := by omega
    rw [hval, Char.ofNat_toNat]
  · have hesc : escChar c = [c] := by
      simp [escChar, h1, h2, h3, h4, h5, h6, h7, h8]
    rw [hesc]
    show parseStrBody (c :: tail) = some (c :: s, rest)
    rw [parseStrBody]
    rw [if_neg h1, if_neg h2, if_neg h8]
    simp [h]

/-- Decoding inverts escaping for whole strings: the parser consumes the
escaped body and the closing quote and returns the original characters. -/
theorem parseStrBody_escape (s : List Char) : ∀ rest : List Char,
    parseStrBody (escapeChars s ++ '"' :: rest) = some (s, rest) := by
  induction s with
  | nil => intro rest; simp [escapeChars, parseStrBody]
  | cons c s ih =>
      intro rest
      have hsplit : escapeChars (c :: s) ++ '"' :: rest
          = escChar c ++ (escapeChars s ++ '"' :: rest) := by
        simp [escapeChars]
      rw [hsplit]
      exact parseStrBody_escChar c _ s rest (ih rest)

theorem dropLit_self (pat : List Char) : ∀ rest : List Char,
    dropLit pat (pat ++ rest) = some rest := by
  induction pat with
  | nil => intro rest; rfl
  | cons p ps ih => intro rest; simp [dropLit, ih]

theorem stringMkData (s : String) : String.mk s.data = s := rfl

/-- C9: serializing an `FTPConfig` through `saveCredentials` and reading
it back through `loadCredentials` (with the Secure Credential Store
returning what was stored) yields the identical config, field for field
— for every host, port, username, password and filename, including ones
needing JSON escapes. -/
theorem credentials_roundtrip (c : FTPConfig) (store : List (String × String)) :
    loadCredentials (saveCredentials c store) = some c := by
  have hparse : parseCreds (credChars c) = some c := by
    unfold parseCreds credChars
    simp only [List.append_assoc, dropLit_self, Option.some_bind, parseStrBody_escape,
      Option.bind_eq_bind]
  have hget : getItem (saveCredentials c store) "ftp_credentials"
      = some (stringifyCredentials c) := by
    simp [getItem, saveCredentials, setItem]
  have hne : stringifyCredentials c ≠ "" := by
    intro hcon
    have : (stringifyCredentials c).data = "".data := by rw [hcon]
    simp [stringifyCredentials, credChars] at this
  unfold loadCredentials
  rw [hget]
  show (if stringifyCredentials c = "" then none else parseCredentials (stringifyCredentials c))
    = some c
  rw [if_neg hne]
  unfold parseCredentials stringifyCredentials
  exact hparse

/-- Writing through a freshly allocated address never changes an older
cell. -/
theorem heapWrite_fresh_frame {α : Type} (h : List α) (v0 v : α) (addr : Nat)
    (haddr : addr < h.length) :
    heapRead (heapWrite (heapAlloc h v0).1 (heapAlloc h v0).2 v) addr = heapRead h addr := by
  unfold heapRead heapWrite heapAlloc
  rw [List.get?_set_ne v _ (by omega)]
  show (h ++ [v0]).get? addr = h.get? addr
  rw [List.get?_append haddr]

/-- The fresh cell holds the copied value. -/
theorem heapAlloc_read {α : Type} (h : List α) (v0 : α) :
    heapRead (heapAlloc h v0).1 (heapAlloc h v0).2 = some v0 := by
  unfold heapRead heapAlloc
  exact List.get?_concat_length h v0

/-- C10: `getConfig` and `getMetrics` return defensive copies: the
returned object lives at a fresh address holding the same value as the
stored one, and mutating it (writing any value through the returned
address) leaves the client's stored configuration and metrics sequence
unchanged. -/
theorem getConfig_getMetrics_defensive (hc : List FTPConfig) (configAddr : Nat)
    (hm : List (List MetricEntry)) (metricsAddr : Nat)
    (h1 : configAddr < hc.length) (h2 : metricsAddr < hm.length) :
    ((getConfigModel hc configAddr).2 ≠ configAddr
      ∧ heapRead (getConfigModel hc configAddr).1 (getConfigModel hc configAddr).2
          = heapRead hc configAddr
      ∧ ∀ v, heapRead (heapWrite (getConfigModel hc configAddr).1
              (getConfigModel hc configAddr).2 v) configAddr = heapRead hc configAddr)
    ∧ ((getMetricsModel hm metricsAddr).2 ≠ metricsAddr
      ∧ heapRead (getMetricsModel hm metricsAddr).1 (getMetricsModel hm metricsAddr).2
          = heapRead hm metricsAddr
      ∧ ∀ ms, heapRead (heapWrite (getMetricsModel hm metricsAddr).1
              (getMetricsModel hm metricsAddr).2 ms) metricsAddr = heapRead hm metricsAddr) := by
  obtain ⟨x, hx⟩ : ∃ x, heapRead hc configAddr = some x :=
    ⟨_, List.get?_eq_get h1⟩
  obtain ⟨y, hy⟩ : ∃ y, heapRead hm metricsAddr = some y :=
    ⟨_, List.get?_eq_get h2⟩
  refine ⟨⟨?_, ?_, ?_⟩, ⟨?_, ?_, ?_⟩⟩
  · show hc.length ≠ configAddr
    omega
  · rw [show getConfigModel hc configAddr
        = heapAlloc hc ((heapRead hc configAddr).getD defaultFTPConfig) from rfl,
      heapAlloc_read, hx]
    rfl
  · intro v
    exact heapWrite_fresh_frame hc _ v configAddr h1
  · show hm.length ≠ metricsAddr
    omega
  · rw [show getMetricsModel hm metricsAddr
        = heapAlloc hm ((heapRead hm metricsAddr).getD []) from rfl,
      heapAlloc_read, hy]
    rfl
  · intro ms
    exact heapWrite_fresh_frame hm _ ms metricsAddr h2

/-- Witness for C10 on a one-cell heap. -/
theorem getConfig_getMetrics_defensive_witness :
    heapRead (heapWrite (getConfigModel [sampleCfg] 0).1 (getConfigModel [sampleCfg] 0).2
        defaultFTPConfig) 0 = heapRead [sampleCfg] 0
    ∧ heapRead (heapWrite (getMetricsModel [[]] 0).1 (getMetricsModel [[]] 0).2
        [{ fileSize := 7, success := true }]) 0 = heapRead [[]] 0 :=
  ⟨(getConfig_getMetrics_defensive [sampleCfg] 0 [[]] 0 (by decide) (by decide)).1.2.2
      defaultFTPConfig,
   (getConfig_getMetrics_defensive [sampleCfg] 0 [[]] 0 (by decide) (by decide)).2.2.2
      [{ fileSize := 7, success := true }]⟩
